import Mathlib

/-!
Verification development for the multiscale ResNet forecaster
(`src/Resnet_multiscale_transfer.py`).

The Python code is shallowly embedded over `List ℚ`: a state vector is a
`List ℚ`, a batch is a `List (List ℚ)`, and a `batch × n_steps × n_dim`
target tensor is a `List (List (List ℚ))`.  Fallible Python code (failed
asserts, out-of-range tensor indexing, calls that raise `TypeError` /
`IndexError` / `NameError` / `NotImplementedError`) is embedded in
`Except PyErr`.  The training loop, whose loss values come from the
optimizer's numeric effect on the network weights (out of scope here), is
embedded as a state machine parametrised by an oracle `vl : ℕ → ℚ` giving
the validation loss observed at each epoch; its control flow (early
stopping, optimizer steps, checkpoint saves) follows the source line by
line.
-/

namespace Multiscale

/-- Python exception kinds raised by the embedded code. -/
inductive PyErr where
  | assertionError
  | indexError
  | typeError
  | nameError
  | notImplementedError
  | zeroDivisionError
  | valueError
deriving DecidableEq

/-- A state vector (one row of a batch). -/
abbrev Vec := List ℚ

/-- `torch.nn.Linear(n_in, n_out)`: `weight` has `n_out` rows of length
`n_in`, `bias` has length `n_out`. -/
structure Linear where
  weight : List Vec
  bias : Vec

/-- Dot product of two vectors (truncating to the shorter, as `zipWith`). -/
def dot (u v : Vec) : ℚ := (List.zipWith (· * ·) u v).sum

/-- `Linear.__call__`: each output coordinate is `⟨row, x⟩ + b`. -/
def Linear.apply (l : Linear) (x : Vec) : Vec :=
  List.zipWith (fun row b => dot row x + b) l.weight l.bias

/-- `torch.nn.ReLU()` on one coordinate. -/
def relu (q : ℚ) : ℚ := max q 0

/-- `torch.nn.ReLU()` on a vector. -/
def reluVec (v : Vec) : Vec := v.map relu

/-- `NNBlock` (lines 8-34): owns the ordered list of `Linear_i` modules. -/
structure NNBlock where
  layers : List Linear

/-- Body of `NNBlock.forward` (lines 25-34): the activation is applied
after every layer except the last; no nonlinearity after the final layer. -/
def applyLayers : List Linear → Vec → Vec
  | [], x => x
  | [l], x => l.apply x
  | l :: l2 :: ls, x => applyLayers (l2 :: ls) (reluVec (l.apply x))

/-- `NNBlock.forward` (lines 25-34). -/
def NNBlock.forward (b : NNBlock) (x : Vec) : Vec := applyLayers b.layers x

/-- The key passed to `ResNet.forward`: the module name `'large'` or `'small'`. -/
inductive Which where
  | large
  | small
deriving DecidableEq

/-- `ResNet` (lines 37-65): dimension/config scalars plus the two residual
blocks registered as modules `'large'` and `'small'`. -/
structure ResNet where
  n_dim : ℕ
  dt : ℚ
  step_size : ℕ
  large : NNBlock
  small : NNBlock

/-- `self._modules[step_size]` lookup in `ResNet.forward`. -/
def ResNet.block (m : ResNet) : Which → NNBlock
  | .large => m.large
  | .small => m.small

/-- `ResNet.forward(x_init, step_size)` (lines 76-82):
`x_init + self._modules[step_size](x_init)`, per batch row. -/
def ResNet.forward (m : ResNet) (x : Vec) (w : Which) : Vec :=
  List.zipWith (· + ·) x ((m.block w).forward x)

/-- `ResNet.forward` mapped over a batch (torch modules act row-wise on a
`batch_size × n_dim` tensor). -/
def fwdB (m : ResNet) (w : Which) (xb : List Vec) : List Vec :=
  xb.map (fun v => m.forward v w)

/-- The taxonomy the spec names `ConsistencyError`, one constructor per
failed assert in `check_data_info`. -/
inductive ConsistencyError where
  | ndimMismatch
  | dtMismatch
  | stepSizeMismatch
deriving DecidableEq

/-- The dataset attributes `check_data_info` reads. -/
structure DataSet where
  n_dim : ℕ
  dt : ℚ
  step_size : ℕ

/-- `ResNet.check_data_info(dataset)` (lines 67-74): three asserts, in
source order. -/
def ResNet.check_data_info (m : ResNet) (d : DataSet) : Except ConsistencyError Unit :=
  if m.n_dim ≠ d.n_dim then .error .ndimMismatch
  else if m.dt ≠ d.dt then .error .dtMismatch
  else if m.step_size ≠ d.step_size then .error .stepSizeMismatch
  else .ok ()

/-! ### Shape well-formedness of a block's layer stack -/

/-- `layersChainB ls din dout`: the layers map dimension `din` to `dout`,
each `Linear` having consistent weight/bias row counts (this is what
`NNBlock.__init__` builds from `arch`). -/
def layersChainB : List Linear → ℕ → ℕ → Bool
  | [], din, dout => din = dout
  | l :: ls, din, dout =>
      (l.weight.all fun r => r.length = din) &&
      (l.weight.length = l.bias.length) &&
      layersChainB ls l.bias.length dout

theorem Linear.apply_length (l : Linear) (x : Vec) :
    (l.apply x).length = min l.weight.length l.bias.length := by
  simp [Linear.apply]

theorem reluVec_length (v : Vec) : (reluVec v).length = v.length := by
  simp [reluVec]

theorem applyLayers_length :
    ∀ (ls : List Linear) (din dout : ℕ) (x : Vec),
      layersChainB ls din dout = true → x.length = din →
      (applyLayers ls x).length = dout
  | [], din, dout, x, h, hx => by
      simp only [layersChainB, decide_eq_true_eq] at h
      simpa [applyLayers, hx] using h
  | [l], din, dout, x, h, hx => by
      simp only [layersChainB, Bool.and_eq_true, decide_eq_true_eq] at h
      simp [applyLayers, Linear.apply_length, h.1.2, h.2]
  | l :: l2 :: ls, din, dout, x, h, hx => by
      simp only [layersChainB, Bool.and_eq_true, decide_eq_true_eq] at h
      have := applyLayers_length (l2 :: ls) l.bias.length dout
        (reluVec (l.apply x))
        (by simp only [layersChainB, Bool.and_eq_true, decide_eq_true_eq]
            exact h.2)
        (by simp [reluVec_length, Linear.apply_length, h.1.2])
      simpa [applyLayers] using this

/-! ### Claim theorems: C5, C8, C2 -/

/-- Claim C5: `check_data_info(dataset)` fails with a ConsistencyError if
and only if the model and the dataset disagree on at least one of `n_dim`,
`dt`, or `step_size`; when all three agree the call returns without
error. -/
theorem check_data_info_consistency (m : ResNet) (d : DataSet) :
    ((∃ e, m.check_data_info d = .error e) ↔
      (m.n_dim ≠ d.n_dim ∨ m.dt ≠ d.dt ∨ m.step_size ≠ d.step_size)) ∧
    (m.n_dim = d.n_dim ∧ m.dt = d.dt ∧ m.step_size = d.step_size →
      m.check_data_info d = .ok ()) := by
  constructor
  · constructor
    · intro ⟨e, he⟩
      by_contra hall
      push_neg at hall
      simp [ResNet.check_data_info, hall.1, hall.2.1, hall.2.2] at he
    · intro hdis
      unfold ResNet.check_data_info
      rcases hdis with h | h | h
      · exact ⟨.ndimMismatch, by simp [h]⟩
      · by_cases h1 : m.n_dim ≠ d.n_dim
        · exact ⟨.ndimMismatch, by simp [h1]⟩
        · exact ⟨.dtMismatch, by simp [h1, h]⟩
      · by_cases h1 : m.n_dim ≠ d.n_dim
        · exact ⟨.ndimMismatch, by simp [h1]⟩
        · by_cases h2 : m.dt ≠ d.dt
          · exact ⟨.dtMismatch, by simp [h1, h2]⟩
          · exact ⟨.stepSizeMismatch, by simp [h1, h2, h]⟩
  · intro ⟨h1, h2, h3⟩
    simp [ResNet.check_data_info, h1, h2, h3]

/-- Witness for C5: a model and dataset that agree on all three values,
where `check_data_info` returns without error. -/
theorem check_data_info_consistency_witness :
    (ResNet.mk 1 1 4 ⟨[]⟩ ⟨[]⟩).check_data_info ⟨1, 1, 4⟩ = .ok () :=
  (check_data_info_consistency (ResNet.mk 1 1 4 ⟨[]⟩ ⟨[]⟩) ⟨1, 1, 4⟩).2
    ⟨rfl, rfl, rfl⟩

/-- Claim C8: with fixed, unmodified parameters, two calls of
`step(x, which)` on the identical input produce identical outputs — the
stepping primitive, embedded as the pure function `fwdB`, is
deterministic. -/
theorem step_deterministic (m : ResNet) (xb : List Vec) (w : Which)
    (y1 y2 : List Vec) (h1 : y1 = fwdB m w xb) (h2 : y2 = fwdB m w xb) :
    y1 = y2 :=
  h1.trans h2.symm

/-- Witness for C8 at a concrete one-layer model and input batch. -/
theorem step_deterministic_witness :
    fwdB (ResNet.mk 1 1 4 ⟨[⟨[[0]], [0]⟩]⟩ ⟨[⟨[[0]], [0]⟩]⟩) Which.small [[(0:ℚ)]] =
    fwdB (ResNet.mk 1 1 4 ⟨[⟨[[0]], [0]⟩]⟩ ⟨[⟨[[0]], [0]⟩]⟩) Which.small [[(0:ℚ)]] :=
  step_deterministic _ [[(0:ℚ)]] Which.small _ _ rfl rfl

/-- Claim C2: `step(x, which)` returns exactly `x + ResidualBlock[which](x)`
(the block applying its affine layers with the nonlinearity between all but
the last pair and none after the final layer, which is how
`NNBlock.forward` is defined), and for a well-formed block the output batch
has the same shape as the input batch. -/
theorem step_residual_and_shape (m : ResNet) (w : Which) (xb : List Vec)
    (hwf : layersChainB (m.block w).layers m.n_dim m.n_dim = true)
    (hx : ∀ v ∈ xb, v.length = m.n_dim) :
    fwdB m w xb = xb.map (fun v => List.zipWith (· + ·) v ((m.block w).forward v)) ∧
    (fwdB m w xb).length = xb.length ∧
    ∀ y ∈ fwdB m w xb, y.length = m.n_dim := by
  refine ⟨rfl, by simp [fwdB], ?_⟩
  intro y hy
  simp only [fwdB, List.mem_map] at hy
  obtain ⟨v, hv, rfl⟩ := hy
  have hblock : ((m.block w).forward v).length = m.n_dim :=
    applyLayers_length (m.block w).layers m.n_dim m.n_dim v hwf (hx v hv)
  simp [ResNet.forward, NNBlock.forward] at hblock ⊢
  simp [hblock, hx v hv]

/-- Witness for C2: the concrete one-layer zero model on a concrete batch. -/
theorem step_residual_and_shape_witness :
    (fwdB (ResNet.mk 1 1 4 ⟨[⟨[[0]], [0]⟩]⟩ ⟨[⟨[[0]], [0]⟩]⟩) Which.large [[(0:ℚ)], [(1:ℚ)]] =
      [[(0:ℚ)], [(1:ℚ)]].map (fun v => List.zipWith (· + ·) v
        (((ResNet.mk 1 1 4 ⟨[⟨[[0]], [0]⟩]⟩ ⟨[⟨[[0]], [0]⟩]⟩).block Which.large).forward v))) ∧
    (fwdB (ResNet.mk 1 1 4 ⟨[⟨[[0]], [0]⟩]⟩ ⟨[⟨[[0]], [0]⟩]⟩) Which.large [[(0:ℚ)], [(1:ℚ)]]).length =
      ([[(0:ℚ)], [(1:ℚ)]] : List Vec).length ∧
    ∀ y ∈ fwdB (ResNet.mk 1 1 4 ⟨[⟨[[0]], [0]⟩]⟩ ⟨[⟨[[0]], [0]⟩]⟩) Which.large [[(0:ℚ)], [(1:ℚ)]],
      y.length = (ResNet.mk 1 1 4 ⟨[⟨[[0]], [0]⟩]⟩ ⟨[⟨[[0]], [0]⟩]⟩).n_dim :=
  step_residual_and_shape _ Which.large [[(0:ℚ)], [(1:ℚ)]] (by decide)
    (by intro v hv; fin_cases hv <;> rfl)

/-! ### `calculate_loss` (lines 171-287) -/

/-- `ys.size(1)` of a `batch × n_steps × n_dim` tensor embedded as a nested
list (well-defined for nonempty rectangular data). -/
def dim1 (ys : List (List Vec)) : ℕ := (ys.headD []).length

/-- `ys.size(2)` of the nested-list embedding. -/
def dim2 (ys : List (List Vec)) : ℕ := ((ys.headD []).headD []).length

/-- The column data `ys[:, k, :]`. -/
def colGet (ys : List (List Vec)) (k : ℕ) : List Vec :=
  ys.map fun rows => rows.getD k []

/-- `ys[:, k, :]` as torch performs it: an `IndexError` when `k` is out of
range of the step axis. -/
def colSlice (ys : List (List Vec)) (k : ℕ) : Except PyErr (List Vec) :=
  if k < dim1 ys then .ok (colGet ys k) else .error .indexError

/-- `torch.nn.MSELoss(reduction='none')` on one pair of rows. -/
def sqErrVec (a b : Vec) : Vec := List.zipWith (fun p q => (p - q) ^ 2) a b

/-- `criterion(y_next, target)`: the unreduced elementwise squared error
tensor of shape `batch × n_dim`. -/
def mseT (a b : List Vec) : List Vec := List.zipWith sqErrVec a b

/-- Elementwise tensor addition (`loss += ...`). -/
def tadd (a b : List Vec) : List Vec := List.zipWith (List.zipWith (· + ·)) a b

/-- `tensor.mean()`: the sum of all entries over the number of entries. -/
def tmean (t : List Vec) : ℚ :=
  (t.map List.sum).sum / ((t.map List.length).sum : ℚ)

/-- `ResNet.calculate_loss(x, ys)` (lines 171-287), accumulation in source
order.  The asserted dimension check reads `ys.size(2)`; each `ys[:, k, :]`
read may raise `IndexError`.  The `large, small` branch at horizon 3
(source lines 205-206) is computed but its error term is never added. -/
def ResNet.calculate_loss (m : ResNet) (x : List Vec) (ys : List (List Vec)) :
    Except PyErr ℚ := do
  if dim2 ys ≠ m.n_dim then throw .assertionError
  -- 4 needs just small
  let t0 ← colSlice ys 0
  let loss := mseT (fwdB m .small x) t0
  -- 8 is 2 smalls or a large
  let t1 ← colSlice ys 1
  let loss := tadd loss (mseT (fwdB m .small (fwdB m .small x)) t1)
  let loss := tadd loss (mseT (fwdB m .large x) t1)
  -- for 12, need big and small in either order
  let t2 ← colSlice ys 2
  let loss := tadd loss (mseT (fwdB m .large (fwdB m .small x)) t2)
  -- need same other way (computed, never accumulated)
  let _deadBranch := fwdB m .small (fwdB m .large x)
  -- for 16: 2 big
  let t3 ← colSlice ys 3
  let loss := tadd loss (mseT (fwdB m .large (fwdB m .large x)) t3)
  -- 4 small
  let loss := tadd loss
    (mseT (fwdB m .small (fwdB m .small (fwdB m .small (fwdB m .small x)))) t3)
  -- 2 small, large
  let loss := tadd loss (mseT (fwdB m .large (fwdB m .small (fwdB m .small x))) t3)
  -- large, 2 small
  let loss := tadd loss (mseT (fwdB m .small (fwdB m .small (fwdB m .large x))) t3)
  -- for 20: 2 big, 1 small
  let t4 ← colSlice ys 4
  let loss := tadd loss (mseT (fwdB m .small (fwdB m .large (fwdB m .large x))) t4)
  let loss := tadd loss (mseT (fwdB m .large (fwdB m .large (fwdB m .small x))) t4)
  let loss := tadd loss (mseT (fwdB m .large (fwdB m .small (fwdB m .large x))) t4)
  -- 5 small
  let loss := tadd loss
    (mseT (fwdB m .small (fwdB m .small (fwdB m .small (fwdB m .small (fwdB m .small x))))) t4)
  -- 3 small, large (source: large first, then three smalls)
  let loss := tadd loss
    (mseT (fwdB m .small (fwdB m .small (fwdB m .small (fwdB m .large x)))) t4)
  let loss := tadd loss
    (mseT (fwdB m .small (fwdB m .small (fwdB m .large (fwdB m .small x)))) t4)
  let loss := tadd loss
    (mseT (fwdB m .small (fwdB m .large (fwdB m .small (fwdB m .small x)))) t4)
  let loss := tadd loss
    (mseT (fwdB m .large (fwdB m .small (fwdB m .small (fwdB m .small x)))) t4)
  return tmean loss

/-- `compose(x, sequence_of_which)`: apply `step` repeatedly in the given
order to a batch. -/
def batchComp (m : ResNet) (ws : List Which) (x : List Vec) : List Vec :=
  ws.foldl (fun y w => fwdB m w y) x

/-- The composition branches the loss accumulates, in source order, paired
with the `ys` horizon column each is compared against. -/
def lossBranches : List (List Which × ℕ) :=
  [([.small], 0),
   ([.small, .small], 1), ([.large], 1),
   ([.small, .large], 2),
   ([.large, .large], 3), ([.small, .small, .small, .small], 3),
   ([.small, .small, .large], 3), ([.large, .small, .small], 3),
   ([.large, .large, .small], 4), ([.small, .large, .large], 4),
   ([.large, .small, .large], 4),
   ([.small, .small, .small, .small, .small], 4),
   ([.large, .small, .small, .small], 4), ([.small, .large, .small, .small], 4),
   ([.small, .small, .large, .small], 4), ([.small, .small, .small, .large], 4)]

/-- Sum of a nonempty list of error tensors, left to right. -/
def tsum1 : List (List Vec) → List Vec
  | [] => []
  | t :: ts => ts.foldl tadd t

/-- The loss as claimed: the mean of the sum of the unreduced squared-error
tensors of exactly the branches in `lossBranches`, each against its fixed
column of `ys`. -/
def claimLoss (m : ResNet) (x : List Vec) (ys : List (List Vec)) : ℚ :=
  tmean (tsum1 (lossBranches.map fun p => mseT (batchComp m p.1 x) (colGet ys p.2)))

/-- Rectangular shape predicate for a `b × s × d` tensor embedding. -/
def rect3 (ys : List (List Vec)) (b s d : ℕ) : Prop :=
  ys.length = b ∧ ∀ rows ∈ ys, rows.length = s ∧ ∀ v ∈ rows, v.length = d

theorem rect3_dims (ys : List (List Vec)) (b s d : ℕ) (h : rect3 ys b s d)
    (hb : 0 < b) (hs : 0 < s) : dim1 ys = s ∧ dim2 ys = d := by
  obtain ⟨hlen, hrow⟩ := h
  match ys with
  | [] => simp at hlen; omega
  | rows :: tl =>
    obtain ⟨hr, hv⟩ := hrow rows (List.mem_cons_self rows tl)
    match rows with
    | [] => simp at hr; omega
    | v :: vtl =>
      exact ⟨by simpa [dim1] using hr,
             by simpa [dim2] using hv v (List.mem_cons_self v vtl)⟩

theorem colSlice_ok (ys : List (List Vec)) (k : ℕ) (h : k < dim1 ys) :
    colSlice ys k = .ok (colGet ys k) := by
  simp [colSlice, h]

theorem colSlice_err (ys : List (List Vec)) (k : ℕ) (h : ¬ k < dim1 ys) :
    colSlice ys k = .error .indexError := by
  simp [colSlice, h]

theorem bindE_ok {α β : Type} (a : α) (f : α → Except PyErr β) :
    Bind.bind (Except.ok a : Except PyErr α) f = f a := rfl

theorem bindE_error {α β : Type} (e : PyErr) (f : α → Except PyErr β) :
    Bind.bind (Except.error e : Except PyErr α) f = Except.error e := rfl

theorem bindE_pure {α β : Type} (a : α) (f : α → Except PyErr β) :
    Bind.bind (Pure.pure a : Except PyErr α) f = f a := rfl

theorem pureE {α : Type} (a : α) : (Pure.pure a : Except PyErr α) = Except.ok a := rfl

/-- Claim C1: for a nonempty rectangular batch and a target tensor with at
least 5 horizon columns matching the model dimension, `calculate_loss`
returns (as a scalar) exactly the mean of the sum of the unreduced
squared-error tensors of the branches in `lossBranches` — one `small` step
vs column 0; `(small,small)` and `(large)` vs column 1; `(small,large)` vs
column 2 while no `(large,small)` branch is ever accumulated;
`(large,large)`, `small×4`, `(small,small,large)`, `(large,small,small)` vs
column 3; and the eight listed three/four/five-step compositions vs
column 4. -/
theorem calculate_loss_branch_sum (m : ResNet) (x : List Vec)
    (ys : List (List Vec)) (b s d : ℕ) (hys : rect3 ys b s d) (hb : 0 < b)
    (hs : 5 ≤ s) (hd : d = m.n_dim) :
    m.calculate_loss x ys = .ok (claimLoss m x ys) ∧
    ∀ p ∈ lossBranches, p.1 ≠ [Which.large, Which.small] := by
  obtain ⟨h1, h2⟩ := rect3_dims ys b s d hys hb (by omega)
  refine ⟨?_, by decide⟩
  have hc0 := colSlice_ok ys 0 (by omega)
  have hc1 := colSlice_ok ys 1 (by omega)
  have hc2 := colSlice_ok ys 2 (by omega)
  have hc3 := colSlice_ok ys 3 (by omega)
  have hc4 := colSlice_ok ys 4 (by omega)
  have hnd : ¬ dim2 ys ≠ m.n_dim := by rw [h2, hd]; simp
  simp only [ResNet.calculate_loss, hnd, if_false, hc0, hc1, hc2, hc3, hc4,
    bindE_pure, bindE_ok, bindE_error, pureE,
    claimLoss, lossBranches, tsum1, batchComp, List.map_cons, List.map_nil,
    List.foldl_cons, List.foldl_nil]

/-- Witness for C1 at a concrete one-dimensional model, batch and 5-column
target tensor. -/
theorem calculate_loss_branch_sum_witness :
    (ResNet.mk 1 1 4 ⟨[⟨[[0]], [0]⟩]⟩ ⟨[⟨[[0]], [0]⟩]⟩).calculate_loss
        [[(0:ℚ)]] [[[(0:ℚ)], [0], [0], [0], [0]]] =
      .ok (claimLoss (ResNet.mk 1 1 4 ⟨[⟨[[0]], [0]⟩]⟩ ⟨[⟨[[0]], [0]⟩]⟩)
        [[(0:ℚ)]] [[[(0:ℚ)], [0], [0], [0], [0]]]) ∧
    ∀ p ∈ lossBranches, p.1 ≠ [Which.large, Which.small] :=
  calculate_loss_branch_sum _ [[(0:ℚ)]] [[[(0:ℚ)], [0], [0], [0], [0]]] 1 5 1
    ⟨rfl, by decide⟩ (by decide) (by decide) rfl

/-- Claim C9: `calculate_loss` validates only the last dimension of `ys`
against the model's `n_dim`, yet reads horizon columns 0 through 4
unconditionally; for any rectangular `ys` whose horizon axis has fewer than
5 (but at least one) entries, the call fails with an out-of-range index
error — `n_horizons ≥ 5` is an unstated precondition. -/
theorem calculate_loss_needs_five_horizons (m : ResNet) (x : List Vec)
    (ys : List (List Vec)) (b s d : ℕ) (hys : rect3 ys b s d) (hb : 0 < b)
    (hs0 : 0 < s) (hs : s < 5) (hd : d = m.n_dim) :
    m.calculate_loss x ys = .error .indexError := by
  obtain ⟨h1, h2⟩ := rect3_dims ys b s d hys hb hs0
  have hnd : ¬ dim2 ys ≠ m.n_dim := by rw [h2, hd]; simp
  have herr : ∀ k, s ≤ k → colSlice ys k = .error .indexError := by
    intro k hk
    exact colSlice_err ys k (by omega)
  have hok : ∀ k, k < s → colSlice ys k = .ok (colGet ys k) := by
    intro k hk
    exact colSlice_ok ys k (by omega)
  interval_cases s
  · simp only [ResNet.calculate_loss, hnd, if_false, hok 0 (by omega),
      herr 1 (by omega), bindE_pure, bindE_ok, bindE_error]
  · simp only [ResNet.calculate_loss, hnd, if_false, hok 0 (by omega),
      hok 1 (by omega), herr 2 (by omega), bindE_pure, bindE_ok, bindE_error]
  · simp only [ResNet.calculate_loss, hnd, if_false, hok 0 (by omega),
      hok 1 (by omega), hok 2 (by omega), herr 3 (by omega),
      bindE_pure, bindE_ok, bindE_error]
  · simp only [ResNet.calculate_loss, hnd, if_false, hok 0 (by omega),
      hok 1 (by omega), hok 2 (by omega), hok 3 (by omega), herr 4 (by omega),
      bindE_pure, bindE_ok, bindE_error]

/-- Witness for C9: a 2-horizon target tensor makes `calculate_loss` raise
the index error. -/
theorem calculate_loss_needs_five_horizons_witness :
    (ResNet.mk 1 1 4 ⟨[⟨[[0]], [0]⟩]⟩ ⟨[⟨[[0]], [0]⟩]⟩).calculate_loss
        [[(0:ℚ)]] [[[(0:ℚ)], [0]]] = .error .indexError :=
  calculate_loss_needs_five_horizons _ [[(0:ℚ)]] [[[(0:ℚ)], [0]]] 1 2 1
    ⟨rfl, by decide⟩ (by decide) (by decide) (by decide) rfl

/-! ### `uni_scale_forecast` (lines 84-113) -/

/-- `ResNet.uni_scale_forecast(x_init, n_steps)` (lines 84-113).  The while
loop starts at `cur_step = step_size - 1`, and its guard
`cur_step < n_steps + step_size` always holds at entry (over ℤ,
`step_size - 1 < n_steps + step_size`).  The first statement of the body is
`x_next = self.forward(x_prev)`, which calls `ResNet.forward` without its
required second positional argument `step_size`, so every execution raises
`TypeError`.  (Were the loop body ever skipped, the remaining code would
call `scipy.interpolate.interp1d` on the single node `steps = [0]`, which
raises `ValueError`; that branch is unreachable.) -/
def ResNet.uni_scale_forecast (m : ResNet) (x_init : List Vec) (n_steps : ℕ) :
    Except PyErr (List (List Vec)) :=
  if (m.step_size : ℤ) - 1 < (n_steps : ℤ) + (m.step_size : ℤ) then
    .error .typeError
  else
    .error .valueError

/-- Claim C3 (code bug): the single-scale forecast never returns a
prediction tensor — every call of `uni_scale_forecast` raises `TypeError`,
because the loop body invokes `self.forward(x_prev)` without the mandatory
`step_size` argument of `ResNet.forward`. -/
theorem uni_scale_forecast_always_raises (m : ResNet) (x_init : List Vec)
    (n_steps : ℕ) :
    m.uni_scale_forecast x_init n_steps = .error .typeError := by
  unfold ResNet.uni_scale_forecast
  rw [if_pos]
  omega

/-! ### `vectorized_multi_scale_forecast` (lines 398-458) -/

/-- `preds[:, indices, :]` gather. -/
def gatherCols (preds : List (List Vec)) (idxs : List ℕ) : List (List Vec) :=
  preds.map fun row => idxs.map fun i => row.getD i []

/-- `preds[:, idxs, :] = vals` scatter (every index assumed in range, which
`msfInner` checks before writing). -/
def setCols (preds : List (List Vec)) (idxs : List ℕ) (vals : List (List Vec)) :
    List (List Vec) :=
  List.zipWith
    (fun row vrow => (List.zip idxs vrow).foldl (fun r p => r.set p.1 p.2) row)
    preds vals

/-- `[val for tup in zip(*indices_lists) for val in tup]` (line 438). -/
def zipFlatten (ls : List (List ℕ)) : List ℕ :=
  match ls with
  | [] => []
  | l0 :: _ =>
      ((List.range (ls.foldl (fun a l => min a l.length) l0.length)).map
        (fun j => ls.map fun l => l.getD j 0)).flatten

/-- Accumulated state of the model loop: the prediction buffer, the index
list and `total_step_sizes`. -/
structure MSFState where
  total : ℕ
  preds : List (List Vec)
  indices : List ℕ

/-- The inner `for t in range(n_forward)` loop (lines 432-437): step every
currently-held column forward, check the scatter indices are in range of
the preallocated buffer (torch raises `IndexError` otherwise), write the
new predictions and record the shifted index list. -/
def msfInner (self : ResNet) (tm : Which) (ss : ℕ) (indices : List ℕ)
    (nCols : ℕ) :
    ℕ → ℕ → List (List Vec) → List (List Vec) → List (List ℕ) →
    Except PyErr (List (List Vec) × List (List ℕ))
  | 0, _, _, preds, ilists => .ok (preds, ilists)
  | fuel + 1, t, yPrev, preds, ilists =>
      let yNext := yPrev.map fun grp => grp.map fun v => self.forward v tm
      let shifted := indices.map fun i => i + (t + 1) * ss
      if shifted.all (· < nCols) then
        msfInner self tm ss indices nCols fuel (t + 1) yNext
          (setCols preds shifted yNext) (ilists ++ [shifted])
      else .error .indexError

/-- One pass of the `for i in [0,1]` model loop (lines 426-439):
`step_size = step_sizes[i]` (an `IndexError` when `i` is out of range of
the list), `type_model = type_models[i]`,
`n_forward = int(total_step_sizes/step_size)` (a `ZeroDivisionError` when
`step_size == 0`), then the inner loop, the index interleaving, and
`total_step_sizes = step_size - 1`. -/
def msfIter (self : ResNet) (step_sizes : List ℕ) (nCols : ℕ) (i : ℕ)
    (st : MSFState) : Except PyErr MSFState :=
  match step_sizes.get? i with
  | none => .error .indexError
  | some step_size =>
      if step_size = 0 then .error .zeroDivisionError
      else
        let tm := if i = 0 then Which.large else Which.small
        let nForward := st.total / step_size
        let yPrev := gatherCols st.preds st.indices
        match msfInner self tm step_size st.indices nCols nForward 0 yPrev
            st.preds [st.indices] with
        | .error e => .error e
        | .ok (preds2, ilists) =>
            .ok ⟨step_size - 1, preds2, zipFlatten ilists⟩

/-- `ResNet.vectorized_multi_scale_forecast(x_init, n_steps, models,
step_sizes)` (lines 398-458).  After the hardcoded `for i in [0,1]` loop,
the tail loop's first statement `last_idx += step_size[-1]` subscripts the
integer `step_size`, raising `TypeError`; if the tail loop body never runs,
`scipy.interpolate.interp1d(..., kind='lin/ear')` (line 455) raises
`NotImplementedError` for the misspelled interpolation kind.  Every
execution path therefore raises. -/
def ResNet.vectorized_multi_scale_forecast (self : ResNet) (x_init : List Vec)
    (n_steps : ℕ) (models : List ResNet) (step_sizes : List ℕ) :
    Except PyErr (List (List Vec)) := do
  let n_dim := (x_init.headD []).length
  let m0 ← match models.get? 0 with
    | some m => Except.ok m
    | none => Except.error PyErr.indexError
  let extended := n_steps + m0.step_size
  let nCols := extended + 1
  -- preds = zeros(n_test, extended_n_steps + 1, n_dim); preds[:, 0, :] = x_init
  let preds0 := x_init.map fun v =>
    (List.range nCols).map fun j => if j = 0 then v else List.replicate n_dim 0
  let st1 ← msfIter self step_sizes nCols 0 ⟨n_steps, preds0, [0]⟩
  let st2 ← msfIter self step_sizes nCols 1 st1
  -- simulate the tails (lines 442-450), then interpolation (lines 453-456)
  let lastIdx := st2.indices.getLastD 0
  if lastIdx < n_steps then
    throw .typeError
  else
    throw .notImplementedError

/-- `Except` success test. -/
def exceptOk {α : Type} : Except PyErr α → Bool
  | .ok _ => true
  | .error _ => false

/-- Claim C4 (code bug): with a single model/step_size pair the multiscale
forecast assembler never returns a value: the model loop is hardcoded as
`for i in [0,1]`, so its second pass reads `step_sizes[1]`, raising
`IndexError` (and no other path returns either, since the tail loop
subscripts the integer `step_size` and the interpolation kind is the
misspelled `'lin/ear'`).  It therefore cannot equal the repeated
small-step forecast. -/
theorem vectorized_multi_scale_forecast_single_pair_raises (self m0 : ResNet)
    (x_init : List Vec) (n_steps s : ℕ) :
    exceptOk (self.vectorized_multi_scale_forecast x_init n_steps [m0] [s]) =
      false := by
  unfold ResNet.vectorized_multi_scale_forecast
  simp only [List.get?, bindE_pure, bindE_ok, bindE_error]
  cases h : msfIter self [s] (n_steps + m0.step_size + 1) 0
      ⟨n_steps,
       x_init.map fun v => (List.range (n_steps + m0.step_size + 1)).map
         fun j => if j = 0 then v else List.replicate (x_init.headD []).length 0,
       [0]⟩ with
  | error e => simp [h, bindE_error, exceptOk]
  | ok st1 =>
      have h2 : msfIter self [s] (n_steps + m0.step_size + 1) 1 st1 =
          .error .indexError := by
        unfold msfIter
        rfl
      simp [h, h2, bindE_ok, bindE_error, exceptOk]

/-! ### `train_net` (lines 115-169)

The loop's loss values come from the optimizer's numeric effect on the
weights, which is outside this embedding's scope; the validation loss is
abstracted as an oracle `vl : ℕ → ℚ` giving the value of
`self.calculate_loss(dataset.val_x, dataset.val_ys)` observed at each
epoch.  Everything else — the early-stopping check against `best_loss`,
the optimizer step, the every-1000-epochs logging/checkpoint block, and
the end-of-training save — follows the source line by line.  A write of
the checkpoint (`torch.save`) is recorded as the epoch number appended to
`saves`. -/

/-- Observable state of the training loop. -/
structure TrainState where
  epoch : ℕ
  bestLoss : ℚ
  steps : ℕ
  saves : List ℕ
  broke : Bool
  lastVal : Option ℚ
deriving DecidableEq

/-- `epoch = 0; best_loss = 1e+5` (lines 130-131); no optimizer step taken,
no checkpoint saved, no `val_loss` variable bound yet. -/
def initTrainState : TrainState :=
  { epoch := 0, bestLoss := 100000, steps := 0, saves := [], broke := false,
    lastVal := none }

/-- The `if epoch % 1000 == 0` logging/checkpoint block (lines 157-164). -/
def trainIterLog (path : Bool) (e : ℕ) (v : ℚ) (s : TrainState) : TrainState :=
  if e % 1000 = 0 then
    if v < s.bestLoss then
      { s with bestLoss := v,
               saves := if path then s.saves ++ [e] else s.saves }
    else s
  else s

/-- The `while epoch < max_epoch` loop (lines 133-164), with fuel equal to
the remaining number of iterations.  Each iteration: `epoch += 1`, compute
the losses, `break` when `best_loss <= 1e-8` (before this iteration's
backward/step), otherwise apply the optimizer step and run the logging
block. -/
def trainLoop (vl : ℕ → ℚ) (path : Bool) (maxEpoch : ℕ) :
    ℕ → TrainState → TrainState
  | 0, s => s
  | fuel + 1, s =>
      if s.epoch < maxEpoch then
        let e := s.epoch + 1
        let v := vl e
        if s.bestLoss ≤ 1 / 100000000 then
          { s with epoch := e, broke := true, lastVal := some v }
        else
          trainLoop vl path maxEpoch fuel
            (trainIterLog path e v
              { s with epoch := e, steps := s.steps + 1, lastVal := some v })
      else s

/-- `ResNet.train_net` control flow (lines 115-169): run the loop, then the
end-of-training save `if val_loss.item() < best_loss and model_path is not
None` (line 167) — a `NameError` when the loop body never ran, because
`val_loss` was never bound. -/
def trainFinish (path : Bool) (s : TrainState) : Except PyErr TrainState :=
  match s.lastVal with
  | none => .error .nameError
  | some v =>
      .ok (if path ∧ v < s.bestLoss then { s with saves := s.saves ++ [s.epoch] }
           else s)

/-- `ResNet.train_net(dataset, max_epoch, batch_size, ...)` control flow:
the loop followed by the end-of-training save. -/
def train_net (vl : ℕ → ℚ) (maxEpoch : ℕ) (path : Bool) :
    Except PyErr TrainState :=
  trainFinish path (trainLoop vl path maxEpoch maxEpoch initTrainState)

theorem trainFinish_some (path : Bool) (s : TrainState) (v : ℚ)
    (h : s.lastVal = some v) :
    trainFinish path s =
      .ok (if path ∧ v < s.bestLoss then { s with saves := s.saves ++ [s.epoch] }
           else s) := by
  unfold trainFinish
  rw [h]

theorem trainIterLog_fields (path : Bool) (e : ℕ) (v : ℚ) (s : TrainState) :
    (trainIterLog path e v s).epoch = s.epoch ∧
    (trainIterLog path e v s).steps = s.steps ∧
    (trainIterLog path e v s).broke = s.broke ∧
    (trainIterLog path e v s).lastVal = s.lastVal := by
  unfold trainIterLog
  split
  · split <;> simp
  · simp

theorem trainIterLog_skip (path : Bool) (e : ℕ) (v : ℚ) (s : TrainState)
    (h : e % 1000 ≠ 0) : trainIterLog path e v s = s := by
  unfold trainIterLog
  rw [if_neg h]

/-- Invariant run of the loop while the early-stopping threshold has not
been reached: with `maxEpoch ≤ 1000` and fuel matching the remaining
epochs, the loop never breaks, applies one optimizer step per remaining
epoch, ends at `epoch = maxEpoch`, records the last validation loss, and —
when `maxEpoch < 1000` — never touches `best_loss` or the checkpoint
list. -/
theorem trainLoop_run (vl : ℕ → ℚ) (path : Bool) (me : ℕ) (hme : me ≤ 1000) :
    ∀ fuel s, s.epoch + fuel = me → ¬ (s.bestLoss ≤ 1 / 100000000) →
      ((trainLoop vl path me fuel s).broke = s.broke ∧
       (trainLoop vl path me fuel s).steps = s.steps + fuel ∧
       (trainLoop vl path me fuel s).epoch = me) ∧
      (0 < fuel → (trainLoop vl path me fuel s).lastVal = some (vl me)) ∧
      (me < 1000 →
        (trainLoop vl path me fuel s).saves = s.saves ∧
        (trainLoop vl path me fuel s).bestLoss = s.bestLoss) := by
  intro fuel
  induction fuel with
  | zero =>
      intro s h hb
      refine ⟨⟨rfl, rfl, ?_⟩, fun h0 => absurd h0 (lt_irrefl 0), fun _ => ⟨rfl, rfl⟩⟩
      simpa [trainLoop] using by omega
  | succ k ih =>
      intro s h hb
      have hlt : s.epoch < me := by omega
      rw [trainLoop, if_pos hlt, if_neg hb]
      rcases Nat.eq_zero_or_pos k with hk | hk
      · subst hk
        have hme2 : s.epoch + 1 = me := by omega
        subst hme2
        have hfields := trainIterLog_fields path (s.epoch + 1) (vl (s.epoch + 1))
          { s with epoch := s.epoch + 1, steps := s.steps + 1,
                   lastVal := some (vl (s.epoch + 1)) }
        simp only [trainLoop]
        refine ⟨⟨hfields.2.2.1, hfields.2.1, hfields.1⟩, fun _ => hfields.2.2.2,
          fun hlt1000 => ?_⟩
        have hne : (s.epoch + 1) % 1000 ≠ 0 := by omega
        rw [trainIterLog_skip path (s.epoch + 1) (vl (s.epoch + 1)) _ hne]
        exact ⟨rfl, rfl⟩
      · have hne : (s.epoch + 1) % 1000 ≠ 0 := by omega
        rw [trainIterLog_skip path (s.epoch + 1) (vl (s.epoch + 1)) _ hne]
        have hih := ih
          { s with epoch := s.epoch + 1, steps := s.steps + 1,
                   lastVal := some (vl (s.epoch + 1)) }
          (by show s.epoch + 1 + k = me; omega) hb
        have hsteps : (trainLoop vl path me k
            { s with epoch := s.epoch + 1, steps := s.steps + 1,
                     lastVal := some (vl (s.epoch + 1)) }).steps =
            s.steps + 1 + k := hih.1.2.1
        refine ⟨⟨hih.1.1, by omega, hih.1.2.2⟩, fun _ => hih.2.1 hk,
          fun hlt1000 => hih.2.2 hlt1000⟩

/-- Claim C10: the early-stopping test compares `best_loss` (not the
current validation loss) against `1e-8`, and `best_loss` is only lowered
inside the every-1000-epochs logging block; hence for every run with
`max_epoch ≤ 1000` the Converged transition never fires and the loop
terminates by exhausting `max_epoch`, applying one optimizer step per
epoch, regardless of the validation losses. -/
theorem train_loop_never_converges_below_1000 (vl : ℕ → ℚ) (path : Bool)
    (me : ℕ) (hme : me ≤ 1000) :
    (trainLoop vl path me me initTrainState).broke = false ∧
    (trainLoop vl path me me initTrainState).steps = me ∧
    (trainLoop vl path me me initTrainState).epoch = me := by
  have h := trainLoop_run vl path me hme me initTrainState (by simp [initTrainState])
    (by norm_num [initTrainState])
  exact ⟨h.1.1, by simpa [initTrainState] using h.1.2.1, h.1.2.2⟩

/-- Witness for C10: a 3-epoch run with an identically-zero validation loss
still exhausts all 3 epochs without converging. -/
theorem train_loop_never_converges_below_1000_witness :
    (trainLoop (fun _ => 0) true 3 3 initTrainState).broke = false ∧
    (trainLoop (fun _ => 0) true 3 3 initTrainState).steps = 3 ∧
    (trainLoop (fun _ => 0) true 3 3 initTrainState).epoch = 3 :=
  train_loop_never_converges_below_1000 (fun _ => 0) true 3 (by norm_num)

/-- Counterexample to claim C6 as stated: with validation loss identically
`0 ≤ 1e-8` from the very first iteration and `max_epoch = 3`, the loop
does not halt at the first iteration — it runs all 3 iterations and
applies all 3 optimizer steps, because the early-stopping check reads
`best_loss` (still `1e+5`), not the current validation loss. -/
theorem validation_threshold_no_immediate_halt :
    ((fun _ : ℕ => (0 : ℚ)) 1 ≤ 1 / 100000000) ∧
    (trainLoop (fun _ => 0) false 3 3 initTrainState).broke = false ∧
    (trainLoop (fun _ => 0) false 3 3 initTrainState).steps = 3 := by
  have h := trainLoop_run (fun _ => 0) false 3 (by norm_num) 3 initTrainState
    (by simp [initTrainState]) (by norm_num [initTrainState])
  exact ⟨by norm_num, h.1.1, by simpa [initTrainState] using h.1.2.1⟩

/-- Claim C6 amended: when `best_loss ≤ 1e-8` holds at the iteration's
early-stopping check, the loop halts immediately in that iteration and its
optimizer gradient step is not applied (the `break` precedes
`optimizer.step()`); since `best_loss` is only lowered in logging epochs
(multiples of 1000), validation loss reaching `1e-8` triggers this halt
only on the iteration after such a logging epoch, not immediately. -/
theorem converged_halts_before_step (vl : ℕ → ℚ) (path : Bool)
    (me fuel : ℕ) (s : TrainState) (hlt : s.epoch < me)
    (hb : s.bestLoss ≤ 1 / 100000000) :
    trainLoop vl path me (fuel + 1) s =
      { s with epoch := s.epoch + 1, broke := true,
               lastVal := some (vl (s.epoch + 1)) } := by
  rw [trainLoop, if_pos hlt, if_pos hb]

/-- Witness for the amended C6: a state whose `best_loss` is `0` halts in
one iteration with no optimizer step counted. -/
theorem converged_halts_before_step_witness :
    trainLoop (fun _ => 0) false 2 2
      { epoch := 0, bestLoss := 0, steps := 0, saves := [], broke := false,
        lastVal := none } =
      { epoch := 1, bestLoss := 0, steps := 0, saves := [], broke := true,
        lastVal := some 0 } :=
  converged_halts_before_step (fun _ => 0) false 2 1
    { epoch := 0, bestLoss := 0, steps := 0, saves := [], broke := false,
      lastVal := none } (by norm_num) (by norm_num)

/-- Counterexample to claim C7 as stated: the loop does not start from
`best_loss = +∞` — the source initializes `best_loss = 1e+5` (line 131), a
finite sentinel, so a validation loss of `2e+5` is *not* below the initial
`best_loss` (under the claim's `+∞` sentinel every finite loss would
be). -/
theorem init_best_loss_finite :
    initTrainState.bestLoss = 100000 ∧ ¬ ((200000 : ℚ) < initTrainState.bestLoss) := by
  constructor
  · rfl
  · norm_num [initTrainState]

/-- Claim C7 amended: in the `max_epoch = 5` scenario, starting from
Running with `epoch = 0` and `best_loss = 1e+5` (the code's finite
sentinel, not `+∞`), the loop executes exactly 5 optimizer steps and never
a 6th, and persists no checkpoint at all when the validation loss never
drops below the `1e+5` sentinel — no logging/checkpoint event fires since
`max_epoch < 1000`, and the end-of-training save's
`val_loss < best_loss` test also fails. -/
theorem train_net_five_steps_no_save (vl : ℕ → ℚ) (path : Bool)
    (h : ∀ e, (100000 : ℚ) ≤ vl e) :
    ∃ s, train_net vl 5 path = .ok s ∧ s.steps = 5 ∧ s.epoch = 5 ∧
      s.saves = [] ∧ s.broke = false := by
  have hrun := trainLoop_run vl path 5 (by norm_num) 5 initTrainState
    (by simp [initTrainState]) (by norm_num [initTrainState])
  set s := trainLoop vl path 5 5 initTrainState with hs
  obtain ⟨⟨hbroke, hsteps, hepoch⟩, hlast, hsaves⟩ := hrun
  have hlastv : s.lastVal = some (vl 5) := hlast (by norm_num)
  have hbest : s.bestLoss = 100000 := ((hsaves (by norm_num)).2).trans rfl
  have hsv : s.saves = [] := ((hsaves (by norm_num)).1).trans rfl
  refine ⟨s, ?_, by simpa [initTrainState] using hsteps, hepoch, hsv, hbroke⟩
  unfold train_net
  rw [← hs, trainFinish_some path s (vl 5) hlastv]
  have hno : ¬ (path ∧ vl 5 < s.bestLoss) := by
    rintro ⟨-, hvl⟩
    rw [hbest] at hvl
    exact absurd hvl (not_lt.mpr (h 5))
  rw [if_neg hno]

/-- Witness for the amended C7: a constant validation loss of exactly the
sentinel value, with a checkpoint path supplied, yields 5 steps and no
saved checkpoint. -/
theorem train_net_five_steps_no_save_witness :
    ∃ s, train_net (fun _ => 100000) 5 true = .ok s ∧ s.steps = 5 ∧
      s.epoch = 5 ∧ s.saves = [] ∧ s.broke = false :=
  train_net_five_steps_no_save (fun _ => 100000) true (fun _ => le_refl _)

end Multiscale
